import Mathlib

/-!
# fullcontact-go: request dispatcher, retry loop and response classifier

Shallow embedding of `fc/fullcontact.go`.

* A goroutine's effects are recorded, in program order, in a log of events:
  every `time.Sleep`, every `httpClient.Do` and every `ch <- apiResponse`.
  The channel is unbuffered; a write is recorded when the goroutine performs
  it, and what follows in the log is what the goroutine does once the write
  has been received.
* The transport and the credentials provider are state machines over an
  arbitrary state type `σ`, so an attempt may answer differently each time.
  `httpClient.Do` returns a pair `(resp, err)`, each of which may be nil, and
  receives the request as an option, `none` being the nil pointer.
* The retry handler is fixed at construction: `RetryAttempts()` and
  `RetryDelayMillis()` are constants, `ShouldRetry` is a function of the code.
* Declarations of the package that live in other files (URL constants,
  `isPopulated`, the validators, `NewFullContactError`, the payload types) and
  the library functions (`http.NewRequest`, `json.Marshal`, `json.Unmarshal`)
  are parameters, collected in `Pkg`.
* Go `int` and `time.Duration` are 64-bit two's complement integers: the
  arithmetic of the delay is reduced with `wrapInt64`.
* Go strings and byte slices are both rendered as `String`; the static headers,
  a map in Go, are a list.
-/

namespace FullContact

/-- A non-nil Go `error`; the interface value is `Option GoError`, nil being `none`. -/
structure GoError where
  text : String
deriving DecidableEq, Repr

/-- The part of `http.Request` that `newHttpRequest` touches. -/
structure HttpRequest where
  Method : String
  URL : String
  Body : String
  Header : List (String × String)
deriving DecidableEq, Repr

/-- The part of `http.Response` the classifier reads: `Header` is `Header.Get`,
`Body` is the result of `ioutil.ReadAll` on the body stream. -/
structure HttpResponse where
  Status : String
  StatusCode : Int
  Header : String → String
  Body : Except GoError String

/-- The request and payload types of the package, declared outside this file. -/
structure Shapes where
  PersonRequest : Type
  CompanyRequest : Type
  ResolveRequest : Type
  PersonResp : Type
  CompanyResponse : Type
  CompanySearchResponse : Type
  ResolveResponse : Type

/-- The value delivered on the channel. Pointer and slice fields are options,
nil being `none`; the other fields start at their zero value. -/
structure APIResponse (T : Shapes) where
  RawHttpResponse : Option HttpResponse
  Err : Option GoError
  Status : String := ""
  StatusCode : Int := 0
  IsSuccessful : Bool := false
  PersonResponse : Option T.PersonResp := none
  CompanyResponse : Option T.CompanyResponse := none
  CompanySearchResponse : Option (List T.CompanySearchResponse) := none
  ResolveResponse : Option T.ResolveResponse := none

/-- Package-level constants, helpers and library functions used by the file. -/
structure Pkg (T : Shapes) where
  personEnrichUrl : String
  companyEnrichUrl : String
  companySearchUrl : String
  identityMapUrl : String
  identityResolveUrl : String
  identityDeleteUrl : String
  userAgent : String
  FCGoClientTestType : String
  isPopulated : String → Bool
  NewFullContactError : String → GoError
  validateForCompanyEnrich : T.CompanyRequest → Option GoError
  validateForCompanySearch : T.CompanyRequest → Option GoError
  validateForIdentityMap : T.ResolveRequest → Option GoError
  validateForIdentityResolve : T.ResolveRequest → Option GoError
  validateForIdentityDelete : T.ResolveRequest → Option GoError
  NewRequest : String → String → String → Except GoError HttpRequest
  marshalPerson : T.PersonRequest → Except GoError String
  marshalCompany : T.CompanyRequest → Except GoError String
  marshalResolve : T.ResolveRequest → Except GoError String
  unmarshalPerson : String → Except GoError T.PersonResp
  unmarshalCompany : String → Except GoError T.CompanyResponse
  unmarshalCompanySearch : String → Except GoError (Option (List T.CompanySearchResponse))
  unmarshalResolve : String → Except GoError T.ResolveResponse
  zeroPerson : T.PersonResp
  zeroCompany : T.CompanyResponse
  zeroResolve : T.ResolveResponse

/-- What `httpClient.Do` returns: the pair `(resp, err)`. -/
structure DoResult where
  resp : Option HttpResponse
  err : Option GoError

/-- The fields of `fullContactClient` the dispatcher uses. `getApiKey` and `Do`
act on the state of the outside world; the retry handler is fixed at
construction. -/
structure fullContactClient (σ : Type) where
  headers : List (String × String)
  getApiKey : σ → String × σ
  Do : Option HttpRequest → σ → DoResult × σ
  RetryAttempts : Int
  RetryDelayMillis : Int
  ShouldRetry : Int → Bool

/-- Observable effects of one goroutine. `slept` carries the `time.Duration`
handed to `time.Sleep`, in nanoseconds. -/
inductive Event (T : Shapes) where
  | slept (d : Int)
  | called (req : Option HttpRequest) (res : DoResult)
  | sent (r : APIResponse T)

/-- State of the outside world together with the effects so far, oldest first. -/
structure World (σ : Type) (T : Shapes) where
  st : σ
  log : List (Event T)

variable {σ : Type} {T : Shapes}

/-- The source's `min`. -/
def min (x y : Int) : Int :=
  if x < y then x else y

/-- Reduction of an integer to the 64-bit two's complement range. -/
def wrapInt64 (x : Int) : Int :=
  (x + 2 ^ 63) % 2 ^ 64 - 2 ^ 63

/-- The constant `time.Millisecond`, in nanoseconds. -/
def Millisecond : Int := 1000000

/-- The argument of `time.Sleep` in `autoRetry`:
`time.Duration(RetryDelayMillis()*(1<<(retryAttemptsDone-1))) * time.Millisecond`. -/
def sleepDuration (retryDelayMillis : Int) (retryAttemptsDone : Nat) : Int :=
  wrapInt64 (wrapInt64 (retryDelayMillis * wrapInt64 (2 ^ (retryAttemptsDone - 1))) * Millisecond)

/-- The effect of `time.Sleep d`. -/
def Sleep (d : Int) (w : World σ T) : World σ T :=
  { w with log := w.log ++ [Event.slept d] }

/-- The effect of `httpClient.Do(req)`. -/
def httpDo (c : fullContactClient σ) (req : Option HttpRequest) (w : World σ T) :
    DoResult × World σ T :=
  ((c.Do req w.st).1, { st := (c.Do req w.st).2, log := w.log ++ [Event.called req (c.Do req w.st).1] })

def newHttpRequest (P : Pkg T) (c : fullContactClient σ) (url reqBytes : String)
    (w : World σ T) : Except GoError HttpRequest × World σ T :=
  match P.NewRequest "POST" url reqBytes with
  | .error err => (.error err, w)
  | .ok req =>
    (.ok { req with
            Header := req.Header ++ c.headers ++
              [("Authorization", "Bearer " ++ (c.getApiKey w.st).1),
               ("Content-Type", "application/json"),
               ("User-Agent", P.userAgent)] },
     { w with st := (c.getApiKey w.st).2 })

/-- The four `set…Response` functions are only called by `sendToChannel`, on a
value whose `RawHttpResponse` is not nil; on nil they leave it as it is here. -/
def setPersonResponse (P : Pkg T) (apiResponse : APIResponse T) : APIResponse T :=
  match apiResponse.RawHttpResponse with
  | none => apiResponse
  | some raw =>
    match raw.Body with
    | .error err => { apiResponse with Err := some err }
    | .ok bodyBytes =>
      match (if P.isPopulated bodyBytes then P.unmarshalPerson bodyBytes else .ok P.zeroPerson) with
      | .error err => { apiResponse with Err := some err }
      | .ok person =>
        { apiResponse with
            Status := raw.Status
            StatusCode := raw.StatusCode
            IsSuccessful := (raw.StatusCode == 200) || (raw.StatusCode == 202) || (raw.StatusCode == 404)
            PersonResponse := some person }

def setCompanyResponse (P : Pkg T) (apiResponse : APIResponse T) : APIResponse T :=
  match apiResponse.RawHttpResponse with
  | none => apiResponse
  | some raw =>
    match raw.Body with
    | .error err => { apiResponse with Err := some err }
    | .ok bodyBytes =>
      match (if P.isPopulated bodyBytes then P.unmarshalCompany bodyBytes else .ok P.zeroCompany) with
      | .error err => { apiResponse with Err := some err }
      | .ok companyResponse =>
        { apiResponse with
            Status := raw.Status
            StatusCode := raw.StatusCode
            IsSuccessful := (raw.StatusCode == 200) || (raw.StatusCode == 202) || (raw.StatusCode == 404)
            CompanyResponse := some companyResponse }

def setCompanySearchResponse (P : Pkg T) (apiResponse : APIResponse T) : APIResponse T :=
  match apiResponse.RawHttpResponse with
  | none => apiResponse
  | some raw =>
    match raw.Body with
    | .error err => { apiResponse with Err := some err }
    | .ok bodyBytes =>
      match (if P.isPopulated bodyBytes then P.unmarshalCompanySearch bodyBytes else .ok none) with
      | .error err => { apiResponse with Err := some err }
      | .ok companySearchResponse =>
        { apiResponse with
            Status := raw.Status
            StatusCode := raw.StatusCode
            IsSuccessful := (raw.StatusCode == 200) || (raw.StatusCode == 202) || (raw.StatusCode == 404)
            CompanySearchResponse := companySearchResponse }

def setResolveResponse (P : Pkg T) (apiResponse : APIResponse T) : APIResponse T :=
  match apiResponse.RawHttpResponse with
  | none => apiResponse
  | some raw =>
    match raw.Body with
    | .error err => { apiResponse with Err := some err }
    | .ok bodyBytes =>
      match (if P.isPopulated bodyBytes then P.unmarshalResolve bodyBytes else .ok P.zeroResolve) with
      | .error err => { apiResponse with Err := some err }
      | .ok resolveResponse =>
        { apiResponse with
            Status := raw.Status
            StatusCode := raw.StatusCode
            IsSuccessful := (raw.StatusCode == 200) || (raw.StatusCode == 204) || (raw.StatusCode == 404)
            ResolveResponse := some resolveResponse }

/-- The value `sendToChannel` builds before it writes it to the channel. -/
def buildAPIResponse (P : Pkg T) (response : Option HttpResponse) (url : String)
    (err : Option GoError) : APIResponse T :=
  let apiResponse : APIResponse T := { RawHttpResponse := response, Err := err }
  match response with
  | none => apiResponse
  | some r =>
    let testType := r.Header P.FCGoClientTestType
    let url := if P.isPopulated testType then testType else url
    if url = P.personEnrichUrl then setPersonResponse P apiResponse
    else if url = P.companyEnrichUrl then setCompanyResponse P apiResponse
    else if url = P.companySearchUrl then setCompanySearchResponse P apiResponse
    else if url = P.identityMapUrl ∨ url = P.identityResolveUrl ∨ url = P.identityDeleteUrl then
      setResolveResponse P apiResponse
    else apiResponse

def sendToChannel (P : Pkg T) (response : Option HttpResponse) (url : String)
    (err : Option GoError) (w : World σ T) : World σ T :=
  { w with log := w.log ++ [Event.sent (buildAPIResponse P response url err)] }

/-- The counter `retryAttemptsDone` starts at 0 in `do` and only grows, so it
is a natural number. When `newHttpRequest` fails the error is written to the
channel, and since that branch has no `return` the code goes on to
`httpClient.Do` with the nil request. -/
def autoRetry (P : Pkg T) (c : fullContactClient σ) (err : Option GoError)
    (resp : Option HttpResponse) (retryAttemptsDone : Nat) (url reqBytes : String)
    (w : World σ T) : World σ T :=
  if (retryAttemptsDone : Int) < min c.RetryAttempts 5 then
    let w1 := Sleep (sleepDuration c.RetryDelayMillis (retryAttemptsDone + 1)) w
    let built := newHttpRequest P c url reqBytes w1
    let w2 := match built.1 with
      | .error err => sendToChannel P none url (some err) built.2
      | .ok _ => built.2
    let req := match built.1 with
      | .error _ => none
      | .ok req => some req
    let done := httpDo c req w2
    if done.1.err.isSome then
      autoRetry P c done.1.err done.1.resp (retryAttemptsDone + 1) url reqBytes done.2
    else if (match done.1.resp with
        | none => false
        | some r => !c.ShouldRetry r.StatusCode) then
      sendToChannel P done.1.resp url none done.2
    else
      autoRetry P c none done.1.resp (retryAttemptsDone + 1) url reqBytes done.2
  else if err.isSome then
    sendToChannel P none url err w
  else
    sendToChannel P resp url none w
termination_by 5 - retryAttemptsDone
decreasing_by
  all_goals simp_wf
  all_goals
    have h5 : min c.RetryAttempts 5 ≤ 5 := by unfold min; split <;> omega
    omega

/-- The method `do` of the source (a keyword in Lean, hence the underscore).
As in `autoRetry`, a construction error is reported and execution continues. -/
def do_ (P : Pkg T) (c : fullContactClient σ) (url reqBytes : String)
    (w : World σ T) : World σ T :=
  let built := newHttpRequest P c url reqBytes w
  let w1 := match built.1 with
    | .error err => sendToChannel P none url (some err) built.2
    | .ok _ => built.2
  let req := match built.1 with
    | .error _ => none
    | .ok req => some req
  let done := httpDo c req w1
  if done.1.err.isSome then
    autoRetry P c done.1.err done.1.resp 0 url reqBytes done.2
  else if (match done.1.resp with
      | none => false
      | some r => !c.ShouldRetry r.StatusCode) then
    sendToChannel P done.1.resp url none done.2
  else
    autoRetry P c none done.1.resp 0 url reqBytes done.2

def resolveRequest (P : Pkg T) (c : fullContactClient σ) (resolveRequest : T.ResolveRequest)
    (url : String) (w : World σ T) : World σ T :=
  match P.marshalResolve resolveRequest with
  | .error err => sendToChannel P none "" (some err) w
  | .ok reqBytes => do_ P c url reqBytes w

/-- The facade operations return the channel at once; the value computed here
is the world after the goroutine they start has run, whose log holds what that
goroutine did to the channel and to the transport. A nil pointer is `none`. -/
def PersonEnrich (P : Pkg T) (c : fullContactClient σ) (personRequest : Option T.PersonRequest)
    (w : World σ T) : World σ T :=
  match personRequest with
  | none => sendToChannel P none "" (some (P.NewFullContactError "Person Request can't be nil")) w
  | some personRequest =>
    match P.marshalPerson personRequest with
    | .error err => sendToChannel P none "" (some err) w
    | .ok reqBytes => do_ P c P.personEnrichUrl reqBytes w

def CompanyEnrich (P : Pkg T) (c : fullContactClient σ) (companyRequest : Option T.CompanyRequest)
    (w : World σ T) : World σ T :=
  match companyRequest with
  | none => sendToChannel P none "" (some (P.NewFullContactError "Company Request can't be nil")) w
  | some companyRequest =>
    match P.validateForCompanyEnrich companyRequest with
    | some err => sendToChannel P none "" (some err) w
    | none =>
      match P.marshalCompany companyRequest with
      | .error err => sendToChannel P none "" (some err) w
      | .ok reqBytes => do_ P c P.companyEnrichUrl reqBytes w

def CompanySearch (P : Pkg T) (c : fullContactClient σ) (companyRequest : Option T.CompanyRequest)
    (w : World σ T) : World σ T :=
  match companyRequest with
  | none => sendToChannel P none "" (some (P.NewFullContactError "Company Request can't be nil")) w
  | some companyRequest =>
    match P.validateForCompanySearch companyRequest with
    | some err => sendToChannel P none "" (some err) w
    | none =>
      match P.marshalCompany companyRequest with
      | .error err => sendToChannel P none "" (some err) w
      | .ok reqBytes => do_ P c P.companySearchUrl reqBytes w

def IdentityMap (P : Pkg T) (c : fullContactClient σ) (request : Option T.ResolveRequest)
    (w : World σ T) : World σ T :=
  match request with
  | none => sendToChannel P none "" (some (P.NewFullContactError "Resolve Request can't be nil")) w
  | some request =>
    match P.validateForIdentityMap request with
    | some err => sendToChannel P none "" (some err) w
    | none => resolveRequest P c request P.identityMapUrl w

def IdentityResolve (P : Pkg T) (c : fullContactClient σ) (request : Option T.ResolveRequest)
    (w : World σ T) : World σ T :=
  match request with
  | none => sendToChannel P none "" (some (P.NewFullContactError "Resolve Request can't be nil")) w
  | some request =>
    match P.validateForIdentityResolve request with
    | some err => sendToChannel P none "" (some err) w
    | none => resolveRequest P c request P.identityResolveUrl w

def IdentityDelete (P : Pkg T) (c : fullContactClient σ) (request : Option T.ResolveRequest)
    (w : World σ T) : World σ T :=
  match request with
  | none => sendToChannel P none "" (some (P.NewFullContactError "Resolve Request can't be nil")) w
  | some request =>
    match P.validateForIdentityDelete request with
    | some err => sendToChannel P none "" (some err) w
    | none => resolveRequest P c request P.identityDeleteUrl w

/-! ## Reading the log -/

/-- Results of the transport calls, oldest first. -/
def callsOf (log : List (Event T)) : List DoResult :=
  log.filterMap fun e => match e with
    | Event.called _ res => some res
    | _ => none

/-- Requests handed to the transport, oldest first (`none` is a nil request). -/
def requestsOf (log : List (Event T)) : List (Option HttpRequest) :=
  log.filterMap fun e => match e with
    | Event.called req _ => some req
    | _ => none

/-- Values written to the channel, oldest first. -/
def sentOf (log : List (Event T)) : List (APIResponse T) :=
  log.filterMap fun e => match e with
    | Event.sent r => some r
    | _ => none

/-- Durations handed to `time.Sleep`, oldest first. -/
def sleepsOf (log : List (Event T)) : List Int :=
  log.filterMap fun e => match e with
    | Event.slept d => some d
    | _ => none

/-- The world in which a goroutine starts: nothing has happened on its channel. -/
def fresh (s : σ) : World σ T :=
  { st := s, log := [] }

/-- The `(response, err)` arguments of the closing `sendToChannel` for a last
transport result: the error alone when there is one, the response otherwise. -/
def terminalArgs (res : DoResult) : Option HttpResponse × Option GoError :=
  match res.err with
  | some e => (none, some e)
  | none => (res.resp, none)

/-- What is written to the channel for a last transport result `res`. -/
def terminalOutcome (P : Pkg T) (url : String) (res : DoResult) : APIResponse T :=
  buildAPIResponse P (terminalArgs res).1 url (terminalArgs res).2

/-- The test `resp != nil && !ShouldRetry(resp.StatusCode)`. -/
def respFinal (c : fullContactClient σ) (resp : Option HttpResponse) : Bool :=
  match resp with
  | none => false
  | some r => !c.ShouldRetry r.StatusCode

/-- The request variable and the world after `req, err := newHttpRequest(..)`
followed by `if err != nil { sendToChannel(ch, nil, url, err) }`. -/
def buildOrReport (P : Pkg T) (c : fullContactClient σ) (url reqBytes : String)
    (w : World σ T) : Option HttpRequest × World σ T :=
  match (newHttpRequest P c url reqBytes w).1 with
  | .error err => (none, sendToChannel P none url (some err) (newHttpRequest P c url reqBytes w).2)
  | .ok req => (some req, (newHttpRequest P c url reqBytes w).2)

/-- Events `buildOrReport` adds: the construction error written to the channel,
or nothing. -/
def reportEvents (P : Pkg T) (url reqBytes : String) : List (Event T) :=
  match P.NewRequest "POST" url reqBytes with
  | .error err => [Event.sent (buildAPIResponse P none url (some err))]
  | .ok _ => []

/-- One retry of `autoRetry` up to the transport call: sleep, rebuild, `Do`. -/
def retryAttempt (P : Pkg T) (c : fullContactClient σ) (k : Nat) (url reqBytes : String)
    (w : World σ T) : DoResult × World σ T :=
  httpDo c
    (buildOrReport P c url reqBytes (Sleep (sleepDuration c.RetryDelayMillis (k + 1)) w)).1
    (buildOrReport P c url reqBytes (Sleep (sleepDuration c.RetryDelayMillis (k + 1)) w)).2

/-- The first try of `do`: build, `Do`. -/
def firstAttempt (P : Pkg T) (c : fullContactClient σ) (url reqBytes : String)
    (w : World σ T) : DoResult × World σ T :=
  httpDo c (buildOrReport P c url reqBytes w).1 (buildOrReport P c url reqBytes w).2

/-! ## Request kinds, as the specification names them -/

/-- The six request kinds. -/
inductive RequestKind where
  | personEnrich
  | companyEnrich
  | companySearch
  | identityMap
  | identityResolve
  | identityDelete
deriving DecidableEq, Repr

/-- URL constant of a request kind. -/
def urlOf (P : Pkg T) : RequestKind → String
  | .personEnrich => P.personEnrichUrl
  | .companyEnrich => P.companyEnrichUrl
  | .companySearch => P.companySearchUrl
  | .identityMap => P.identityMapUrl
  | .identityResolve => P.identityResolveUrl
  | .identityDelete => P.identityDeleteUrl

/-- The URL the `switch` of `sendToChannel` looks at: the test-type header of
the response when it is populated, the URL of the call otherwise. -/
def switchUrl (P : Pkg T) (r : HttpResponse) (url : String) : String :=
  if P.isPopulated (r.Header P.FCGoClientTestType) then r.Header P.FCGoClientTestType else url

/-- Requests are strings, payloads carry no data. -/
def stubShapes : Shapes :=
  { PersonRequest := String
    CompanyRequest := String
    ResolveRequest := String
    PersonResp := Unit
    CompanyResponse := Unit
    CompanySearchResponse := Unit
    ResolveResponse := Unit }

/-- Package environment of the test doubles. The URL parser rejects ":" (for
`net/url` it has no scheme), the decoders accept the JSON text `null` only, the
validators reject the empty request. -/
def stubPkg : Pkg stubShapes :=
  { personEnrichUrl := "https://api.fullcontact.com/v3/person.enrich"
    companyEnrichUrl := "https://api.fullcontact.com/v3/company.enrich"
    companySearchUrl := "https://api.fullcontact.com/v3/company.search"
    identityMapUrl := "https://api.fullcontact.com/v3/identity.map"
    identityResolveUrl := "https://api.fullcontact.com/v3/identity.resolve"
    identityDeleteUrl := "https://api.fullcontact.com/v3/identity.delete"
    userAgent := "FullContact_Go_Client"
    FCGoClientTestType := "FCGoClientTestType"
    isPopulated := fun v => decide (v ≠ "")
    NewFullContactError := fun m => ⟨m⟩
    validateForCompanyEnrich := fun (r : String) => if r = "" then some ⟨"invalid company request"⟩ else none
    validateForCompanySearch := fun (r : String) => if r = "" then some ⟨"invalid company request"⟩ else none
    validateForIdentityMap := fun (r : String) => if r = "" then some ⟨"invalid resolve request"⟩ else none
    validateForIdentityResolve := fun (r : String) => if r = "" then some ⟨"invalid resolve request"⟩ else none
    validateForIdentityDelete := fun (r : String) => if r = "" then some ⟨"invalid resolve request"⟩ else none
    NewRequest := fun method url body =>
      if url = ":" then .error ⟨"missing protocol scheme"⟩
      else .ok { Method := method, URL := url, Body := body, Header := [] }
    marshalPerson := fun r => .ok r
    marshalCompany := fun r => .ok r
    marshalResolve := fun r => .ok r
    unmarshalPerson := fun b => if b = "null" then .ok () else .error ⟨"invalid character"⟩
    unmarshalCompany := fun b => if b = "null" then .ok () else .error ⟨"invalid character"⟩
    unmarshalCompanySearch := fun b => if b = "null" then .ok none else .error ⟨"invalid character"⟩
    unmarshalResolve := fun b => if b = "null" then .ok () else .error ⟨"invalid character"⟩
    zeroPerson := ()
    zeroCompany := ()
    zeroResolve := () }

/-- A response with the given status code and body and no headers. -/
def stubResponse (code : Int) (body : String) : HttpResponse :=
  { Status := "", StatusCode := code, Header := fun _ => "", Body := .ok body }

/-- Retry handler of the test doubles: 429 and 503 are retried. -/
def stubShouldRetry (code : Int) : Bool :=
  decide (code = 429 ∨ code = 503)

/-- A client whose transport gives the same result to every call. -/
def steadyClient (res : DoResult) (retryAttempts retryDelayMillis : Int) : fullContactClient Unit :=
  { headers := []
    getApiKey := fun s => ("key", s)
    Do := fun _ s => (res, s)
    RetryAttempts := retryAttempts
    RetryDelayMillis := retryDelayMillis
    ShouldRetry := stubShouldRetry }

/-- A client whose transport replays a script, one result per call, and
refuses the connection once the script is used up. -/
def scriptedClient (retryAttempts retryDelayMillis : Int) : fullContactClient (List DoResult) :=
  { headers := []
    getApiKey := fun s => ("key", s)
    Do := fun _ s =>
      match s with
      | [] => (⟨none, some ⟨"connection refused"⟩⟩, [])
      | res :: rest => (res, rest)
    RetryAttempts := retryAttempts
    RetryDelayMillis := retryDelayMillis
    ShouldRetry := stubShouldRetry }

/-- A client whose transport checks its argument: a nil request is an error,
any other request is answered with status 200. -/
def guardedClient (retryAttempts retryDelayMillis : Int) : fullContactClient Unit :=
  { headers := []
    getApiKey := fun s => ("key", s)
    Do := fun req s =>
      match req with
      | none => (⟨none, some ⟨"nil request"⟩⟩, s)
      | some _ => (⟨some (stubResponse 200 "null"), none⟩, s)
    RetryAttempts := retryAttempts
    RetryDelayMillis := retryDelayMillis
    ShouldRetry := stubShouldRetry }

/-! ## Basic facts -/

theorem min_eq (x y : Int) : min x y = Min.min x y := by
  unfold min
  split <;> omega

theorem min_le_five (x : Int) : min x 5 ≤ 5 := by
  rw [min_eq]; omega

@[simp] theorem callsOf_nil : callsOf ([] : List (Event T)) = [] := rfl
@[simp] theorem sentOf_nil : sentOf ([] : List (Event T)) = [] := rfl
@[simp] theorem sleepsOf_nil : sleepsOf ([] : List (Event T)) = [] := rfl

@[simp] theorem callsOf_append (a b : List (Event T)) :
    callsOf (a ++ b) = callsOf a ++ callsOf b := by
  simp [callsOf, List.filterMap_append]

@[simp] theorem sentOf_append (a b : List (Event T)) :
    sentOf (a ++ b) = sentOf a ++ sentOf b := by
  simp [sentOf, List.filterMap_append]

@[simp] theorem sleepsOf_append (a b : List (Event T)) :
    sleepsOf (a ++ b) = sleepsOf a ++ sleepsOf b := by
  simp [sleepsOf, List.filterMap_append]

@[simp] theorem callsOf_called (req : Option HttpRequest) (res : DoResult) (l : List (Event T)) :
    callsOf (Event.called req res :: l) = res :: callsOf l := rfl
@[simp] theorem callsOf_sent (r : APIResponse T) (l : List (Event T)) :
    callsOf (Event.sent r :: l) = callsOf l := rfl
@[simp] theorem callsOf_slept (d : Int) (l : List (Event T)) :
    callsOf (Event.slept d :: l) = callsOf l := rfl
@[simp] theorem sentOf_called (req : Option HttpRequest) (res : DoResult) (l : List (Event T)) :
    sentOf (Event.called req res :: l) = sentOf l := rfl
@[simp] theorem sentOf_sent (r : APIResponse T) (l : List (Event T)) :
    sentOf (Event.sent r :: l) = r :: sentOf l := rfl
@[simp] theorem sentOf_slept (d : Int) (l : List (Event T)) :
    sentOf (Event.slept d :: l) = sentOf l := rfl
@[simp] theorem sleepsOf_called (req : Option HttpRequest) (res : DoResult) (l : List (Event T)) :
    sleepsOf (Event.called req res :: l) = sleepsOf l := rfl
@[simp] theorem sleepsOf_sent (r : APIResponse T) (l : List (Event T)) :
    sleepsOf (Event.sent r :: l) = sleepsOf l := rfl
@[simp] theorem sleepsOf_slept (d : Int) (l : List (Event T)) :
    sleepsOf (Event.slept d :: l) = d :: sleepsOf l := rfl

@[simp] theorem callsOf_reportEvents (P : Pkg T) (url reqBytes : String) :
    callsOf (reportEvents P url reqBytes) = [] := by
  unfold reportEvents; split <;> rfl

@[simp] theorem sleepsOf_reportEvents (P : Pkg T) (url reqBytes : String) :
    sleepsOf (reportEvents P url reqBytes) = [] := by
  unfold reportEvents; split <;> rfl

theorem reportEvents_of_ok {P : Pkg T} {url reqBytes : String} {req : HttpRequest}
    (h : P.NewRequest "POST" url reqBytes = .ok req) : reportEvents P url reqBytes = [] := by
  unfold reportEvents; rw [h]

@[simp] theorem fresh_log (s : σ) : (fresh s : World σ T).log = [] := rfl

@[simp] theorem sendToChannel_log (P : Pkg T) (response : Option HttpResponse) (url : String)
    (err : Option GoError) (w : World σ T) :
    (sendToChannel P response url err w).log
      = w.log ++ [Event.sent (buildAPIResponse P response url err)] := rfl

@[simp] theorem Sleep_log (d : Int) (w : World σ T) :
    (Sleep d w).log = w.log ++ [Event.slept d] := rfl

theorem buildOrReport_log (P : Pkg T) (c : fullContactClient σ) (url reqBytes : String)
    (w : World σ T) :
    (buildOrReport P c url reqBytes w).2.log = w.log ++ reportEvents P url reqBytes := by
  unfold buildOrReport reportEvents newHttpRequest
  cases h : P.NewRequest "POST" url reqBytes <;> simp [sendToChannel]

theorem firstAttempt_log (P : Pkg T) (c : fullContactClient σ) (url reqBytes : String)
    (w : World σ T) :
    (firstAttempt P c url reqBytes w).2.log
      = w.log ++ reportEvents P url reqBytes
          ++ [Event.called (buildOrReport P c url reqBytes w).1 (firstAttempt P c url reqBytes w).1] := by
  simp [firstAttempt, httpDo, buildOrReport_log]

theorem retryAttempt_log (P : Pkg T) (c : fullContactClient σ) (k : Nat) (url reqBytes : String)
    (w : World σ T) :
    (retryAttempt P c k url reqBytes w).2.log
      = w.log ++ [Event.slept (sleepDuration c.RetryDelayMillis (k + 1))]
          ++ reportEvents P url reqBytes
          ++ [Event.called
                (buildOrReport P c url reqBytes (Sleep (sleepDuration c.RetryDelayMillis (k + 1)) w)).1
                (retryAttempt P c k url reqBytes w).1] := by
  simp [retryAttempt, httpDo, buildOrReport_log]

/-! ## Unfolding `do` and `autoRetry` -/

theorem autoRetry_unfold (P : Pkg T) (c : fullContactClient σ) (err : Option GoError)
    (resp : Option HttpResponse) (k : Nat) (url reqBytes : String) (w : World σ T) :
    autoRetry P c err resp k url reqBytes w
      = if (k : Int) < min c.RetryAttempts 5 then
          if (retryAttempt P c k url reqBytes w).1.err.isSome then
            autoRetry P c (retryAttempt P c k url reqBytes w).1.err
              (retryAttempt P c k url reqBytes w).1.resp (k + 1) url reqBytes
              (retryAttempt P c k url reqBytes w).2
          else if respFinal c (retryAttempt P c k url reqBytes w).1.resp then
            sendToChannel P (retryAttempt P c k url reqBytes w).1.resp url none
              (retryAttempt P c k url reqBytes w).2
          else
            autoRetry P c none (retryAttempt P c k url reqBytes w).1.resp (k + 1) url reqBytes
              (retryAttempt P c k url reqBytes w).2
        else if err.isSome then sendToChannel P none url err w
        else sendToChannel P resp url none w := by
  rw [autoRetry]
  simp only [retryAttempt, buildOrReport, respFinal]
  cases (newHttpRequest P c url reqBytes (Sleep (sleepDuration c.RetryDelayMillis (k + 1)) w)).1 <;> rfl

theorem do_unfold (P : Pkg T) (c : fullContactClient σ) (url reqBytes : String) (w : World σ T) :
    do_ P c url reqBytes w
      = if (firstAttempt P c url reqBytes w).1.err.isSome then
          autoRetry P c (firstAttempt P c url reqBytes w).1.err
            (firstAttempt P c url reqBytes w).1.resp 0 url reqBytes
            (firstAttempt P c url reqBytes w).2
        else if respFinal c (firstAttempt P c url reqBytes w).1.resp then
          sendToChannel P (firstAttempt P c url reqBytes w).1.resp url none
            (firstAttempt P c url reqBytes w).2
        else
          autoRetry P c none (firstAttempt P c url reqBytes w).1.resp 0 url reqBytes
            (firstAttempt P c url reqBytes w).2 := by
  simp only [do_, firstAttempt, buildOrReport, respFinal]
  cases (newHttpRequest P c url reqBytes w).1 <;> rfl

theorem autoRetry_stop (P : Pkg T) (c : fullContactClient σ) (err : Option GoError)
    (resp : Option HttpResponse) (k : Nat) (url reqBytes : String) (w : World σ T)
    (h : ¬ (k : Int) < min c.RetryAttempts 5) :
    autoRetry P c err resp k url reqBytes w
      = sendToChannel P (terminalArgs ⟨resp, err⟩).1 url (terminalArgs ⟨resp, err⟩).2 w := by
  rw [autoRetry_unfold]
  cases err <;> simp [h, terminalArgs]

theorem autoRetry_final (P : Pkg T) (c : fullContactClient σ) (err : Option GoError)
    (resp : Option HttpResponse) (k : Nat) (url reqBytes : String) (w : World σ T)
    (h : (k : Int) < min c.RetryAttempts 5)
    (he : (retryAttempt P c k url reqBytes w).1.err = none)
    (hf : respFinal c (retryAttempt P c k url reqBytes w).1.resp = true) :
    autoRetry P c err resp k url reqBytes w
      = sendToChannel P (retryAttempt P c k url reqBytes w).1.resp url none
          (retryAttempt P c k url reqBytes w).2 := by
  rw [autoRetry_unfold]
  simp [h, he, hf]

theorem autoRetry_again (P : Pkg T) (c : fullContactClient σ) (err : Option GoError)
    (resp : Option HttpResponse) (k : Nat) (url reqBytes : String) (w : World σ T)
    (h : (k : Int) < min c.RetryAttempts 5)
    (hr : (retryAttempt P c k url reqBytes w).1.err ≠ none
          ∨ respFinal c (retryAttempt P c k url reqBytes w).1.resp = false) :
    autoRetry P c err resp k url reqBytes w
      = autoRetry P c (retryAttempt P c k url reqBytes w).1.err
          (retryAttempt P c k url reqBytes w).1.resp (k + 1) url reqBytes
          (retryAttempt P c k url reqBytes w).2 := by
  rw [autoRetry_unfold]
  simp only [h, if_true]
  split
  · rfl
  · rename_i hs
    have hn : (retryAttempt P c k url reqBytes w).1.err = none := by
      simpa using hs
    rcases hr with hr | hr
    · exact absurd hn hr
    · simp [hr, hn]

theorem do_final (P : Pkg T) (c : fullContactClient σ) (url reqBytes : String) (w : World σ T)
    (he : (firstAttempt P c url reqBytes w).1.err = none)
    (hf : respFinal c (firstAttempt P c url reqBytes w).1.resp = true) :
    do_ P c url reqBytes w
      = sendToChannel P (firstAttempt P c url reqBytes w).1.resp url none
          (firstAttempt P c url reqBytes w).2 := by
  rw [do_unfold]
  simp [he, hf]

theorem do_again (P : Pkg T) (c : fullContactClient σ) (url reqBytes : String) (w : World σ T)
    (hr : (firstAttempt P c url reqBytes w).1.err ≠ none
          ∨ respFinal c (firstAttempt P c url reqBytes w).1.resp = false) :
    do_ P c url reqBytes w
      = autoRetry P c (firstAttempt P c url reqBytes w).1.err
          (firstAttempt P c url reqBytes w).1.resp 0 url reqBytes
          (firstAttempt P c url reqBytes w).2 := by
  rw [do_unfold]
  split
  · rfl
  · rename_i hs
    have hn : (firstAttempt P c url reqBytes w).1.err = none := by
      simpa using hs
    rcases hr with hr | hr
    · exact absurd hn hr
    · simp [hr, hn]

/-- Induction along the retries of `autoRetry`. `Q k last w w1` relates the
counter, the last transport result and the world on entry to the world on
exit. -/
theorem autoRetry_induction (P : Pkg T) (c : fullContactClient σ) (url reqBytes : String)
    (Q : Nat → DoResult → World σ T → World σ T → Prop)
    (stop : ∀ (k : Nat) last w, ¬ (k : Int) < min c.RetryAttempts 5 →
      Q k last w (sendToChannel P (terminalArgs last).1 url (terminalArgs last).2 w))
    (final : ∀ (k : Nat) last w, (k : Int) < min c.RetryAttempts 5 →
      (retryAttempt P c k url reqBytes w).1.err = none →
      respFinal c (retryAttempt P c k url reqBytes w).1.resp = true →
      Q k last w (sendToChannel P (retryAttempt P c k url reqBytes w).1.resp url none
        (retryAttempt P c k url reqBytes w).2))
    (again : ∀ (k : Nat) last w w1, (k : Int) < min c.RetryAttempts 5 →
      ((retryAttempt P c k url reqBytes w).1.err ≠ none
        ∨ respFinal c (retryAttempt P c k url reqBytes w).1.resp = false) →
      Q (k + 1) (retryAttempt P c k url reqBytes w).1 (retryAttempt P c k url reqBytes w).2 w1 →
      Q k last w w1) :
    ∀ k last w, Q k last w (autoRetry P c last.err last.resp k url reqBytes w) := by
  intro k
  generalize hn : 5 - k = n
  induction n using Nat.strong_induction_on generalizing k with
  | _ n ih =>
    intro last w
    subst hn
    by_cases h : (k : Int) < min c.RetryAttempts 5
    · by_cases hr : (retryAttempt P c k url reqBytes w).1.err ≠ none
          ∨ respFinal c (retryAttempt P c k url reqBytes w).1.resp = false
      · rw [autoRetry_again P c _ _ k url reqBytes w h hr]
        have h5 := min_le_five c.RetryAttempts
        exact again k last w _ h hr (ih (5 - (k + 1)) (by omega) (k + 1) rfl _ _)
      · have he : (retryAttempt P c k url reqBytes w).1.err = none := by
          by_contra hc; exact hr (Or.inl hc)
        have hf : respFinal c (retryAttempt P c k url reqBytes w).1.resp = true := by
          by_contra hc; exact hr (Or.inr (by simpa using hc))
        rw [autoRetry_final P c _ _ k url reqBytes w h he hf]
        exact final k last w h he hf
    · rw [autoRetry_stop P c _ _ k url reqBytes w h]
      exact stop k last w h

/-- Case analysis for `do`: either the first response is final and is sent, or
`autoRetry` takes over with the first result. -/
theorem do_cases (P : Pkg T) (c : fullContactClient σ) (url reqBytes : String) (w : World σ T)
    (Q : World σ T → Prop)
    (final : (firstAttempt P c url reqBytes w).1.err = none →
      respFinal c (firstAttempt P c url reqBytes w).1.resp = true →
      Q (sendToChannel P (firstAttempt P c url reqBytes w).1.resp url none
        (firstAttempt P c url reqBytes w).2))
    (again : ((firstAttempt P c url reqBytes w).1.err ≠ none
        ∨ respFinal c (firstAttempt P c url reqBytes w).1.resp = false) →
      Q (autoRetry P c (firstAttempt P c url reqBytes w).1.err
          (firstAttempt P c url reqBytes w).1.resp 0 url reqBytes
          (firstAttempt P c url reqBytes w).2)) :
    Q (do_ P c url reqBytes w) := by
  by_cases hr : (firstAttempt P c url reqBytes w).1.err ≠ none
      ∨ respFinal c (firstAttempt P c url reqBytes w).1.resp = false
  · rw [do_again P c url reqBytes w hr]; exact again hr
  · have he : (firstAttempt P c url reqBytes w).1.err = none := by
      by_contra hc; exact hr (Or.inl hc)
    have hf : respFinal c (firstAttempt P c url reqBytes w).1.resp = true := by
      by_contra hc; exact hr (Or.inr (by simpa using hc))
    rw [do_final P c url reqBytes w he hf]; exact final he hf

/-! ## Number of transport calls -/

theorem autoRetry_calls_le (P : Pkg T) (c : fullContactClient σ) (url reqBytes : String)
    (k : Nat) (last : DoResult) (w : World σ T) :
    (callsOf (autoRetry P c last.err last.resp k url reqBytes w).log).length
      ≤ (callsOf w.log).length + ((min c.RetryAttempts 5).toNat - k) := by
  refine autoRetry_induction P c url reqBytes
    (fun k _ w w1 => (callsOf w1.log).length
      ≤ (callsOf w.log).length + ((min c.RetryAttempts 5).toNat - k)) ?_ ?_ ?_ k last w
  · intro k last w _
    simp
  · intro k last w h _ _
    simp [retryAttempt_log]
    omega
  · intro k last w w1 h _ ih
    simp [retryAttempt_log] at ih
    omega

theorem autoRetry_calls_eq (P : Pkg T) (c : fullContactClient σ) (url reqBytes : String)
    (hret : ∀ req s, ∃ r, (c.Do req s).1.resp = some r ∧ (c.Do req s).1.err = none
      ∧ c.ShouldRetry r.StatusCode = true)
    (k : Nat) (last : DoResult) (w : World σ T) :
    (callsOf (autoRetry P c last.err last.resp k url reqBytes w).log).length
      = (callsOf w.log).length + ((min c.RetryAttempts 5).toNat - k) := by
  refine autoRetry_induction P c url reqBytes
    (fun k _ w w1 => (callsOf w1.log).length
      = (callsOf w.log).length + ((min c.RetryAttempts 5).toNat - k)) ?_ ?_ ?_ k last w
  · intro k last w h
    simp
    omega
  · intro k last w h _ hf
    exfalso
    obtain ⟨r, hr1, _, hr3⟩ := hret
      (buildOrReport P c url reqBytes (Sleep (sleepDuration c.RetryDelayMillis (k + 1)) w)).1
      (buildOrReport P c url reqBytes (Sleep (sleepDuration c.RetryDelayMillis (k + 1)) w)).2.st
    simp [retryAttempt, httpDo, hr1, respFinal, hr3] at hf
  · intro k last w w1 h _ ih
    simp [retryAttempt_log] at ih
    omega

/-- Every run of `autoRetry` ends by writing to the channel. -/
theorem autoRetry_ends_with_sent (P : Pkg T) (c : fullContactClient σ) (url reqBytes : String)
    (k : Nat) (last : DoResult) (w : World σ T) :
    ∃ pre a, (autoRetry P c last.err last.resp k url reqBytes w).log = pre ++ [Event.sent a] := by
  refine autoRetry_induction P c url reqBytes
    (fun _ _ _ w1 => ∃ pre a, w1.log = pre ++ [Event.sent a]) ?_ ?_ ?_ k last w
  · intro k last w _
    exact ⟨_, _, sendToChannel_log _ _ _ _ _⟩
  · intro k last w _ _ _
    exact ⟨_, _, sendToChannel_log _ _ _ _ _⟩
  · intro k last w w1 _ _ ih
    exact ih

/-! ## What is written to the channel -/

theorem callsOf_retryAttempt (P : Pkg T) (c : fullContactClient σ) (k : Nat)
    (url reqBytes : String) (w : World σ T) :
    callsOf (retryAttempt P c k url reqBytes w).2.log
      = callsOf w.log ++ [(retryAttempt P c k url reqBytes w).1] := by
  simp [retryAttempt_log]

theorem callsOf_firstAttempt (P : Pkg T) (c : fullContactClient σ)
    (url reqBytes : String) (w : World σ T) :
    callsOf (firstAttempt P c url reqBytes w).2.log
      = callsOf w.log ++ [(firstAttempt P c url reqBytes w).1] := by
  simp [firstAttempt_log]

theorem sleepsOf_retryAttempt (P : Pkg T) (c : fullContactClient σ) (k : Nat)
    (url reqBytes : String) (w : World σ T) :
    sleepsOf (retryAttempt P c k url reqBytes w).2.log
      = sleepsOf w.log ++ [sleepDuration c.RetryDelayMillis (k + 1)] := by
  simp [retryAttempt_log]

theorem sleepsOf_firstAttempt (P : Pkg T) (c : fullContactClient σ)
    (url reqBytes : String) (w : World σ T) :
    sleepsOf (firstAttempt P c url reqBytes w).2.log = sleepsOf w.log := by
  simp [firstAttempt_log]

theorem sentOf_retryAttempt (P : Pkg T) (c : fullContactClient σ) (k : Nat)
    (url reqBytes : String) (w : World σ T) {req : HttpRequest}
    (hok : P.NewRequest "POST" url reqBytes = .ok req) :
    sentOf (retryAttempt P c k url reqBytes w).2.log = sentOf w.log := by
  simp [retryAttempt_log, reportEvents_of_ok hok]

theorem sentOf_firstAttempt (P : Pkg T) (c : fullContactClient σ)
    (url reqBytes : String) (w : World σ T) {req : HttpRequest}
    (hok : P.NewRequest "POST" url reqBytes = .ok req) :
    sentOf (firstAttempt P c url reqBytes w).2.log = sentOf w.log := by
  simp [firstAttempt_log, reportEvents_of_ok hok]

theorem terminalOutcome_of_err_none (P : Pkg T) (url : String) (res : DoResult)
    (he : res.err = none) :
    (terminalOutcome P url res : APIResponse T) = buildAPIResponse P res.resp url none := by
  simp [terminalOutcome, terminalArgs, he]

/-- When request construction succeeds, `autoRetry` writes exactly one value,
computed from the result of the last transport call. -/
theorem autoRetry_sent (P : Pkg T) (c : fullContactClient σ) (url reqBytes : String)
    {req : HttpRequest} (hok : P.NewRequest "POST" url reqBytes = .ok req)
    (k : Nat) (last : DoResult) (w : World σ T)
    (hlast : (callsOf w.log).getLast? = some last) :
    ∃ res, (callsOf (autoRetry P c last.err last.resp k url reqBytes w).log).getLast? = some res
      ∧ sentOf (autoRetry P c last.err last.resp k url reqBytes w).log
          = sentOf w.log ++ [terminalOutcome P url res] := by
  refine autoRetry_induction P c url reqBytes
    (fun _ last w w1 => (callsOf w.log).getLast? = some last →
      ∃ res, (callsOf w1.log).getLast? = some res
        ∧ sentOf w1.log = sentOf w.log ++ [terminalOutcome P url res]) ?_ ?_ ?_ k last w hlast
  · intro k last w _ hl
    exact ⟨last, by simpa using hl, by simp [terminalOutcome]⟩
  · intro k last w _ he _ _
    refine ⟨(retryAttempt P c k url reqBytes w).1, ?_, ?_⟩
    · rw [sendToChannel_log, callsOf_append, callsOf_retryAttempt]
      simp
    · rw [sendToChannel_log, sentOf_append, sentOf_retryAttempt P c k url reqBytes w hok,
        terminalOutcome_of_err_none P url _ he]
      simp
  · intro k last w w1 _ _ ih _
    obtain ⟨res, h1, h2⟩ := ih (by rw [callsOf_retryAttempt]; simp)
    exact ⟨res, h1, by rw [h2, sentOf_retryAttempt P c k url reqBytes w hok]⟩

theorem do_sent (P : Pkg T) (c : fullContactClient σ) (url reqBytes : String)
    {req : HttpRequest} (hok : P.NewRequest "POST" url reqBytes = .ok req) (w : World σ T) :
    ∃ res, (callsOf (do_ P c url reqBytes w).log).getLast? = some res
      ∧ sentOf (do_ P c url reqBytes w).log = sentOf w.log ++ [terminalOutcome P url res] := by
  refine do_cases P c url reqBytes w
    (fun w1 => ∃ res, (callsOf w1.log).getLast? = some res
      ∧ sentOf w1.log = sentOf w.log ++ [terminalOutcome P url res]) ?_ ?_
  · intro he _
    refine ⟨(firstAttempt P c url reqBytes w).1, ?_, ?_⟩
    · rw [sendToChannel_log, callsOf_append, callsOf_firstAttempt]
      simp
    · rw [sendToChannel_log, sentOf_append, sentOf_firstAttempt P c url reqBytes w hok,
        terminalOutcome_of_err_none P url _ he]
      simp
  · intro _
    obtain ⟨res, h1, h2⟩ := autoRetry_sent P c url reqBytes hok 0
      (firstAttempt P c url reqBytes w).1 (firstAttempt P c url reqBytes w).2
      (by rw [callsOf_firstAttempt]; simp)
    exact ⟨res, h1, by rw [h2, sentOf_firstAttempt P c url reqBytes w hok]⟩

/-! ## Delays -/

theorem autoRetry_sleeps (P : Pkg T) (c : fullContactClient σ) (url reqBytes : String)
    (k : Nat) (last : DoResult) (w : World σ T) :
    ∃ j, (callsOf (autoRetry P c last.err last.resp k url reqBytes w).log).length
          = (callsOf w.log).length + j
      ∧ sleepsOf (autoRetry P c last.err last.resp k url reqBytes w).log
          = sleepsOf w.log ++ (List.range' (k + 1) j).map (sleepDuration c.RetryDelayMillis) := by
  refine autoRetry_induction P c url reqBytes
    (fun k _ w w1 => ∃ j, (callsOf w1.log).length = (callsOf w.log).length + j
      ∧ sleepsOf w1.log
          = sleepsOf w.log ++ (List.range' (k + 1) j).map (sleepDuration c.RetryDelayMillis))
    ?_ ?_ ?_ k last w
  · intro k last w _
    exact ⟨0, by simp, by simp⟩
  · intro k last w _ _ _
    refine ⟨1, ?_, ?_⟩
    · rw [sendToChannel_log, callsOf_append, callsOf_retryAttempt]; simp
    · rw [sendToChannel_log, sleepsOf_append, sleepsOf_retryAttempt]; simp
  · intro k last w w1 _ _ ih
    obtain ⟨j, h1, h2⟩ := ih
    refine ⟨j + 1, ?_, ?_⟩
    · rw [h1, callsOf_retryAttempt]; simp; omega
    · rw [h2, sleepsOf_retryAttempt, List.range'_succ]; simp

theorem do_sleeps (P : Pkg T) (c : fullContactClient σ) (url reqBytes : String) (w : World σ T) :
    ∃ j, (callsOf (do_ P c url reqBytes w).log).length = (callsOf w.log).length + 1 + j
      ∧ sleepsOf (do_ P c url reqBytes w).log
          = sleepsOf w.log ++ (List.range' 1 j).map (sleepDuration c.RetryDelayMillis) := by
  refine do_cases P c url reqBytes w
    (fun w1 => ∃ j, (callsOf w1.log).length = (callsOf w.log).length + 1 + j
      ∧ sleepsOf w1.log
          = sleepsOf w.log ++ (List.range' 1 j).map (sleepDuration c.RetryDelayMillis)) ?_ ?_
  · intro _ _
    refine ⟨0, ?_, ?_⟩
    · rw [sendToChannel_log, callsOf_append, callsOf_firstAttempt]; simp
    · rw [sendToChannel_log, sleepsOf_append, sleepsOf_firstAttempt]; simp
  · intro _
    obtain ⟨j, h1, h2⟩ := autoRetry_sleeps P c url reqBytes 0
      (firstAttempt P c url reqBytes w).1 (firstAttempt P c url reqBytes w).2
    refine ⟨j, ?_, ?_⟩
    · rw [h1, callsOf_firstAttempt]; simp
    · rw [h2, sleepsOf_firstAttempt]

/-- Every retry call comes right after its sleep: between the sleep of retry
`n` and the transport call of retry `n` the log holds no other sleep and no
other call (only, possibly, the report of a construction error). -/
theorem autoRetry_sleep_then_call (P : Pkg T) (c : fullContactClient σ) (url reqBytes : String)
    (k : Nat) (last : DoResult) (w : World σ T) :
    ∃ suffix, (autoRetry P c last.err last.resp k url reqBytes w).log = w.log ++ suffix
      ∧ ∀ n, k + 1 ≤ n → n ≤ k + (callsOf suffix).length →
          ∃ pre mid post req res,
            suffix = pre ++ Event.slept (sleepDuration c.RetryDelayMillis n)
                        :: (mid ++ Event.called req res :: post)
              ∧ (callsOf pre).length = n - (k + 1) ∧ callsOf mid = [] ∧ sleepsOf mid = [] := by
  refine autoRetry_induction P c url reqBytes
    (fun k _ w w1 => ∃ suffix, w1.log = w.log ++ suffix
      ∧ ∀ n, k + 1 ≤ n → n ≤ k + (callsOf suffix).length →
          ∃ pre mid post req res,
            suffix = pre ++ Event.slept (sleepDuration c.RetryDelayMillis n)
                        :: (mid ++ Event.called req res :: post)
              ∧ (callsOf pre).length = n - (k + 1) ∧ callsOf mid = [] ∧ sleepsOf mid = [])
    ?_ ?_ ?_ k last w
  · intro k last w _
    refine ⟨_, sendToChannel_log _ _ _ _ _, ?_⟩
    intro n h1 h2
    simp at h2
    omega
  · intro k last w _ _ _
    refine ⟨[Event.slept (sleepDuration c.RetryDelayMillis (k + 1))]
        ++ reportEvents P url reqBytes
        ++ [Event.called
              (buildOrReport P c url reqBytes (Sleep (sleepDuration c.RetryDelayMillis (k + 1)) w)).1
              (retryAttempt P c k url reqBytes w).1]
        ++ [Event.sent (buildAPIResponse P (retryAttempt P c k url reqBytes w).1.resp url none)],
      ?_, ?_⟩
    · rw [sendToChannel_log, retryAttempt_log]
      simp only [List.append_assoc]
    · intro n h1 h2
      simp at h2
      have hn : n = k + 1 := by omega
      subst hn
      exact ⟨[], reportEvents P url reqBytes,
        [Event.sent (buildAPIResponse P (retryAttempt P c k url reqBytes w).1.resp url none)],
        (buildOrReport P c url reqBytes (Sleep (sleepDuration c.RetryDelayMillis (k + 1)) w)).1,
        (retryAttempt P c k url reqBytes w).1, by simp, by simp, by simp, by simp⟩
  · intro k last w w1 _ _ ih
    obtain ⟨suffix, hs, hpos⟩ := ih
    refine ⟨[Event.slept (sleepDuration c.RetryDelayMillis (k + 1))]
        ++ reportEvents P url reqBytes
        ++ [Event.called
              (buildOrReport P c url reqBytes (Sleep (sleepDuration c.RetryDelayMillis (k + 1)) w)).1
              (retryAttempt P c k url reqBytes w).1]
        ++ suffix, ?_, ?_⟩
    · rw [hs, retryAttempt_log]
      simp only [List.append_assoc]
    · intro n h1 h2
      simp at h2
      by_cases hn : n = k + 1
      · subst hn
        exact ⟨[], reportEvents P url reqBytes, suffix,
          (buildOrReport P c url reqBytes (Sleep (sleepDuration c.RetryDelayMillis (k + 1)) w)).1,
          (retryAttempt P c k url reqBytes w).1, by simp, by simp, by simp, by simp⟩
      · obtain ⟨pre, mid, post, req, res, e, hp, hm1, hm2⟩ := hpos n (by omega) (by omega)
        refine ⟨[Event.slept (sleepDuration c.RetryDelayMillis (k + 1))]
            ++ reportEvents P url reqBytes
            ++ [Event.called
              (buildOrReport P c url reqBytes (Sleep (sleepDuration c.RetryDelayMillis (k + 1)) w)).1
              (retryAttempt P c k url reqBytes w).1]
            ++ pre, mid, post, req, res, ?_, ?_, hm1, hm2⟩
        · rw [e]
          simp only [List.append_assoc]
        · simp [hp]
          omega

theorem do_sleep_then_call (P : Pkg T) (c : fullContactClient σ) (url reqBytes : String) (s : σ)
    (n : Nat) (h1 : 1 ≤ n) (hn : n < (callsOf (do_ P c url reqBytes (fresh s)).log).length) :
    ∃ pre mid post req res,
      (do_ P c url reqBytes (fresh s)).log
          = pre ++ Event.slept (sleepDuration c.RetryDelayMillis n)
              :: (mid ++ Event.called req res :: post)
        ∧ (callsOf pre).length = n ∧ callsOf mid = [] ∧ sleepsOf mid = [] := by
  revert hn
  refine do_cases P c url reqBytes (fresh s)
    (fun w1 => n < (callsOf w1.log).length → ∃ pre mid post req res,
      w1.log = pre ++ Event.slept (sleepDuration c.RetryDelayMillis n)
          :: (mid ++ Event.called req res :: post)
        ∧ (callsOf pre).length = n ∧ callsOf mid = [] ∧ sleepsOf mid = []) ?_ ?_
  · intro _ _ hn
    rw [sendToChannel_log, callsOf_append, callsOf_firstAttempt] at hn
    simp at hn
    omega
  · intro _ hn
    obtain ⟨suffix, hs, hpos⟩ := autoRetry_sleep_then_call P c url reqBytes 0
      (firstAttempt P c url reqBytes (fresh s)).1 (firstAttempt P c url reqBytes (fresh s)).2
    rw [hs, callsOf_append, callsOf_firstAttempt] at hn
    simp at hn
    obtain ⟨pre, mid, post, req, res, e, hp, hm1, hm2⟩ := hpos n (by omega) (by omega)
    refine ⟨(firstAttempt P c url reqBytes (fresh s)).2.log ++ pre, mid, post, req, res,
      ?_, ?_, hm1, hm2⟩
    · rw [hs, e]
      simp only [List.append_assoc]
    · rw [callsOf_append, callsOf_firstAttempt]
      simp [hp]
      omega

theorem do_calls_le (P : Pkg T) (c : fullContactClient σ) (url reqBytes : String) (w : World σ T) :
    (callsOf (do_ P c url reqBytes w).log).length
      ≤ (callsOf w.log).length + 1 + (min c.RetryAttempts 5).toNat := by
  refine do_cases P c url reqBytes w
    (fun w1 => (callsOf w1.log).length
      ≤ (callsOf w.log).length + 1 + (min c.RetryAttempts 5).toNat) ?_ ?_
  · intro _ _
    rw [sendToChannel_log, callsOf_append, callsOf_firstAttempt]; simp
  · intro _
    have h := autoRetry_calls_le P c url reqBytes 0
      (firstAttempt P c url reqBytes w).1 (firstAttempt P c url reqBytes w).2
    rw [callsOf_firstAttempt] at h
    simp at h
    omega

theorem do_calls_eq (P : Pkg T) (c : fullContactClient σ) (url reqBytes : String)
    (hret : ∀ req s, ∃ r, (c.Do req s).1.resp = some r ∧ (c.Do req s).1.err = none
      ∧ c.ShouldRetry r.StatusCode = true) (w : World σ T) :
    (callsOf (do_ P c url reqBytes w).log).length
      = (callsOf w.log).length + 1 + (min c.RetryAttempts 5).toNat := by
  have hr : (firstAttempt P c url reqBytes w).1.err ≠ none
      ∨ respFinal c (firstAttempt P c url reqBytes w).1.resp = false := by
    right
    obtain ⟨r, hr1, _, hr3⟩ := hret (buildOrReport P c url reqBytes w).1
      (buildOrReport P c url reqBytes w).2.st
    simp [firstAttempt, httpDo, hr1, respFinal, hr3]
  rw [do_again P c url reqBytes w hr]
  have h := autoRetry_calls_eq P c url reqBytes hret 0
    (firstAttempt P c url reqBytes w).1 (firstAttempt P c url reqBytes w).2
  rw [callsOf_firstAttempt] at h
  simp at h
  omega

theorem do_ends_with_sent (P : Pkg T) (c : fullContactClient σ) (url reqBytes : String)
    (w : World σ T) :
    ∃ pre a, (do_ P c url reqBytes w).log = pre ++ [Event.sent a] := by
  refine do_cases P c url reqBytes w (fun w1 => ∃ pre a, w1.log = pre ++ [Event.sent a]) ?_ ?_
  · intro _ _
    exact ⟨_, _, sendToChannel_log _ _ _ _ _⟩
  · intro _
    exact autoRetry_ends_with_sent P c url reqBytes 0 _ _

/-! ## Arithmetic of the delay -/

theorem wrapInt64_of_fit (x : Int) (h1 : -(2 ^ 63) ≤ x) (h2 : x < 2 ^ 63) : wrapInt64 x = x := by
  unfold wrapInt64
  omega

theorem sleepDuration_of_fit (base : Int) (n : Nat) (h1 : 1 ≤ n) (h5 : n ≤ 5)
    (hlo : -(2 ^ 63) ≤ base * 2 ^ (n - 1) * Millisecond)
    (hhi : base * 2 ^ (n - 1) * Millisecond < 2 ^ 63) :
    sleepDuration base n = base * 2 ^ (n - 1) * Millisecond := by
  have hw : wrapInt64 (2 ^ (n - 1)) = 2 ^ (n - 1) := by
    interval_cases n <;> (unfold wrapInt64; norm_num)
  have hb : -(2 ^ 63) ≤ base * 2 ^ (n - 1) ∧ base * 2 ^ (n - 1) < 2 ^ 63 := by
    unfold Millisecond at hlo hhi
    constructor <;> omega
  unfold sleepDuration
  rw [hw, wrapInt64_of_fit _ hb.1 hb.2, wrapInt64_of_fit _ hlo hhi]

theorem newHttpRequest_ok (P : Pkg T) (c : fullContactClient σ) (url reqBytes : String)
    (w : World σ T) (req : HttpRequest) (h : (newHttpRequest P c url reqBytes w).1 = .ok req) :
    ∃ req0, P.NewRequest "POST" url reqBytes = .ok req0 := by
  unfold newHttpRequest at h
  cases hn : P.NewRequest "POST" url reqBytes with
  | error e => rw [hn] at h; simp at h
  | ok r => exact ⟨r, rfl⟩

/-! ## The dispatcher -/

/-- C1: when request construction succeeds, one call of `do` writes exactly one
`APIResponse` to the result channel, for every retry handler (attempts, delay,
`ShouldRetry`) and every behaviour of the transport. -/
theorem do_delivers_exactly_one (P : Pkg T) (c : fullContactClient σ) (url reqBytes : String)
    (s : σ) (req : HttpRequest)
    (hreq : (newHttpRequest P c url reqBytes (fresh s)).1 = .ok req) :
    (sentOf (do_ P c url reqBytes (fresh s)).log).length = 1 := by
  obtain ⟨req0, hok⟩ := newHttpRequest_ok P c url reqBytes (fresh s) req hreq
  obtain ⟨res, _, h⟩ := do_sent P c url reqBytes hok (fresh s)
  rw [h]
  simp

/-- A transport error, then a 503, then a 200: one value is written. -/
theorem do_delivers_exactly_one_witness :
    (sentOf (do_ stubPkg (scriptedClient 3 100) stubPkg.personEnrichUrl "null"
      (fresh [⟨none, some ⟨"timeout"⟩⟩, ⟨some (stubResponse 503 ""), none⟩,
        ⟨some (stubResponse 200 "null"), none⟩])).log).length = 1 :=
  do_delivers_exactly_one stubPkg (scriptedClient 3 100) stubPkg.personEnrichUrl "null" _ _ rfl

/-- C3: with a configured number of attempts `n ≥ 0` and a transport that
answers every call with a response whose status code `ShouldRetry` flags, the
log of `do` ends with the write of the terminal outcome, and before it the
transport was called exactly `1 + min(n, 5)` times. -/
theorem do_retryable_attempts (P : Pkg T) (c : fullContactClient σ) (url reqBytes : String)
    (s : σ) (hn : 0 ≤ c.RetryAttempts)
    (hret : ∀ req st, ∃ r, (c.Do req st).1 = ⟨some r, none⟩ ∧ c.ShouldRetry r.StatusCode = true) :
    ∃ pre a, (do_ P c url reqBytes (fresh s)).log = pre ++ [Event.sent a]
      ∧ ((callsOf pre).length : Int) = 1 + min c.RetryAttempts 5 := by
  obtain ⟨pre, a, h⟩ := do_ends_with_sent P c url reqBytes (fresh s)
  refine ⟨pre, a, h, ?_⟩
  have hc := do_calls_eq P c url reqBytes (by
    intro req st
    obtain ⟨r, h1, h2⟩ := hret req st
    exact ⟨r, by rw [h1], by rw [h1], h2⟩) (fresh s)
  rw [h] at hc
  simp at hc
  have h5 := min_le_five c.RetryAttempts
  have h0 : 0 ≤ min c.RetryAttempts 5 := by rw [min_eq]; omega
  omega

/-- Eight configured attempts against a transport that always answers 503. -/
theorem do_retryable_attempts_witness :
    ∃ pre a, (do_ stubPkg (steadyClient ⟨some (stubResponse 503 ""), none⟩ 8 100)
        stubPkg.companySearchUrl "null" (fresh ())).log = pre ++ [Event.sent a]
      ∧ ((callsOf pre).length : Int) = 1 + min 8 5 :=
  do_retryable_attempts stubPkg (steadyClient ⟨some (stubResponse 503 ""), none⟩ 8 100)
    stubPkg.companySearchUrl "null" () (by decide)
    (fun _ _ => ⟨stubResponse 503 "", rfl, by decide⟩)

/-- C10, as the code has it: in one dispatch the transport is called at least
once and at most `1 + min(n, 5)` times, the first try plus at most `min(n, 5)`
retries; when `n` is negative it is called exactly once. -/
theorem do_attempts_at_most (P : Pkg T) (c : fullContactClient σ) (url reqBytes : String)
    (s : σ) :
    1 ≤ (callsOf (do_ P c url reqBytes (fresh s)).log).length
      ∧ (callsOf (do_ P c url reqBytes (fresh s)).log).length
          ≤ 1 + (min c.RetryAttempts 5).toNat
      ∧ (c.RetryAttempts < 0 → (callsOf (do_ P c url reqBytes (fresh s)).log).length = 1) := by
  have h := do_calls_le P c url reqBytes (fresh s)
  obtain ⟨j, hj, _⟩ := do_sleeps P c url reqBytes (fresh s)
  simp at h hj
  refine ⟨by omega, by omega, ?_⟩
  intro hneg
  have hm : min c.RetryAttempts 5 < 0 := by rw [min_eq]; omega
  omega

/-- C10 as stated fails: with zero configured attempts and a transport that
answers 200, the transport is called once, more than `min(0, 5) = 0` times. -/
theorem do_attempts_exceed_min :
    ¬ (((callsOf (do_ stubPkg (steadyClient ⟨some (stubResponse 200 "null"), none⟩ 0 100)
          stubPkg.personEnrichUrl "null" (fresh ())).log).length : Int)
        ≤ min (steadyClient ⟨some (stubResponse 200 "null"), none⟩ 0 100).RetryAttempts 5) := by
  have hc : (callsOf (do_ stubPkg (steadyClient ⟨some (stubResponse 200 "null"), none⟩ 0 100)
      stubPkg.personEnrichUrl "null" (fresh ())).log).length = 1 := by
    rw [do_final stubPkg (steadyClient ⟨some (stubResponse 200 "null"), none⟩ 0 100)
      stubPkg.personEnrichUrl "null" (fresh ()) rfl (by decide)]
    rw [sendToChannel_log, callsOf_append, callsOf_firstAttempt]
    rfl
  rw [hc]
  decide

/-- C4, as the code has it: for every retry `n ≥ 1` the dispatch performs, if
`RetryDelayMillis * 2^(n-1)` milliseconds, counted in nanoseconds, fits a signed
64-bit integer, then the `n`-th duration handed to `time.Sleep` is exactly
`RetryDelayMillis * 2^(n-1)` milliseconds, and that sleep comes right before the
transport call of retry `n`: `n` calls precede it, and no call and no other
sleep lies between the two. -/
theorem retry_delay_exact (P : Pkg T) (c : fullContactClient σ) (url reqBytes : String)
    (s : σ) (n : Nat) (h1 : 1 ≤ n)
    (hn : n < (callsOf (do_ P c url reqBytes (fresh s)).log).length)
    (hlo : -(2 ^ 63) ≤ c.RetryDelayMillis * 2 ^ (n - 1) * Millisecond)
    (hhi : c.RetryDelayMillis * 2 ^ (n - 1) * Millisecond < 2 ^ 63) :
    (sleepsOf (do_ P c url reqBytes (fresh s)).log)[n - 1]?
        = some (c.RetryDelayMillis * 2 ^ (n - 1) * Millisecond)
      ∧ ∃ pre mid post req res,
          (do_ P c url reqBytes (fresh s)).log
              = pre ++ Event.slept (c.RetryDelayMillis * 2 ^ (n - 1) * Millisecond)
                  :: (mid ++ Event.called req res :: post)
            ∧ (callsOf pre).length = n ∧ callsOf mid = [] ∧ sleepsOf mid = [] := by
  obtain ⟨j, hj, hs⟩ := do_sleeps P c url reqBytes (fresh s)
  have hle := do_calls_le P c url reqBytes (fresh s)
  simp only [fresh_log, callsOf_nil, List.length_nil, zero_add] at hle
  have h5 := min_le_five c.RetryAttempts
  have hn5 : n ≤ 5 := by omega
  have hnj : n - 1 < j := by
    simp at hj
    omega
  have hd := sleepDuration_of_fit _ n h1 hn5 hlo hhi
  constructor
  · rw [hs]
    simp only [fresh_log, sleepsOf_nil, List.nil_append, List.getElem?_map]
    rw [List.getElem?_range' _ _ hnj]
    simp only [Option.map_some', one_mul]
    rw [show 1 + (n - 1) = n by omega, hd]
  · rw [← hd]
    exact do_sleep_then_call P c url reqBytes s n h1 hn

/-- C4 as stated fails when the arithmetic overflows: with a base delay of
`2^62` ms the duration handed to `time.Sleep` before the first retry is 0, not
`2^62` ms. -/
theorem retry_delay_overflow :
    (sleepsOf (do_ stubPkg (steadyClient ⟨some (stubResponse 503 ""), none⟩ 1 4611686018427387904)
        stubPkg.personEnrichUrl "null" (fresh ())).log)[1 - 1]?
      ≠ some ((steadyClient ⟨some (stubResponse 503 ""), none⟩ 1 4611686018427387904).RetryDelayMillis
          * 2 ^ (1 - 1) * Millisecond) := by
  have e : sleepsOf (do_ stubPkg (steadyClient ⟨some (stubResponse 503 ""), none⟩ 1 4611686018427387904)
      stubPkg.personEnrichUrl "null" (fresh ())).log = [0] := by
    simp [do_, autoRetry, buildOrReport, newHttpRequest, httpDo, stubPkg, steadyClient, fresh,
      respFinal, sendToChannel, Sleep, min, sleepDuration, wrapInt64, Millisecond, stubResponse,
      stubShouldRetry]
  rw [e]
  simp [steadyClient, Millisecond]

/-- Three configured attempts, base delay 100 ms, a transport that always
answers 503: the second retry is preceded by 200 ms. -/
theorem retry_delay_exact_witness :
    (sleepsOf (do_ stubPkg (steadyClient ⟨some (stubResponse 503 ""), none⟩ 3 100)
        stubPkg.personEnrichUrl "null" (fresh ())).log)[2 - 1]?
        = some (100 * 2 ^ (2 - 1) * Millisecond)
      ∧ ∃ pre mid post req res,
          (do_ stubPkg (steadyClient ⟨some (stubResponse 503 ""), none⟩ 3 100)
              stubPkg.personEnrichUrl "null" (fresh ())).log
              = pre ++ Event.slept (100 * 2 ^ (2 - 1) * Millisecond)
                  :: (mid ++ Event.called req res :: post)
            ∧ (callsOf pre).length = 2 ∧ callsOf mid = [] ∧ sleepsOf mid = [] :=
  retry_delay_exact stubPkg (steadyClient ⟨some (stubResponse 503 ""), none⟩ 3 100)
    stubPkg.personEnrichUrl "null" () 2 (by decide)
    (by
      rw [do_calls_eq stubPkg (steadyClient ⟨some (stubResponse 503 ""), none⟩ 3 100)
        stubPkg.personEnrichUrl "null" (fun _ _ => ⟨stubResponse 503 "", rfl, rfl, by decide⟩)]
      decide)
    (by decide) (by decide)

theorem buildOrReport_of_ok (P : Pkg T) (c : fullContactClient σ) (url reqBytes : String)
    (w : World σ T) (req : HttpRequest)
    (h : (newHttpRequest P c url reqBytes w).1 = .ok req) :
    buildOrReport P c url reqBytes w = (some req, (newHttpRequest P c url reqBytes w).2) := by
  unfold buildOrReport
  rw [h]

/-- C5: if the first request is built and the transport answers it with a
response whose status code `ShouldRetry` does not flag, the goroutine calls the
transport once with that request, sleeps never, and writes the classified
response to the channel, and nothing else. -/
theorem do_single_attempt (P : Pkg T) (c : fullContactClient σ) (url reqBytes : String)
    (s : σ) (req : HttpRequest) (r : HttpResponse)
    (hreq : (newHttpRequest P c url reqBytes (fresh s)).1 = .ok req)
    (hdo : (c.Do (some req) (newHttpRequest P c url reqBytes (fresh s)).2.st).1 = ⟨some r, none⟩)
    (hfin : c.ShouldRetry r.StatusCode = false) :
    (do_ P c url reqBytes (fresh s)).log
      = [Event.called (some req) ⟨some r, none⟩,
         Event.sent (buildAPIResponse P (some r) url none)] := by
  obtain ⟨req0, hok⟩ := newHttpRequest_ok P c url reqBytes (fresh s) req hreq
  have hb := buildOrReport_of_ok P c url reqBytes (fresh s) req hreq
  have hfirst : (firstAttempt P c url reqBytes (fresh s)).1 = ⟨some r, none⟩ := by
    simp only [firstAttempt, httpDo, hb]
    exact hdo
  rw [do_final P c url reqBytes (fresh s) (by rw [hfirst]) (by rw [hfirst]; simp [respFinal, hfin])]
  rw [sendToChannel_log, firstAttempt_log, reportEvents_of_ok hok, hfirst, hb]
  simp

/-- One call answered 200: a single request, no sleep, the response delivered. -/
theorem do_single_attempt_witness :
    (do_ stubPkg (scriptedClient 3 100) stubPkg.personEnrichUrl "null"
        (fresh [⟨some (stubResponse 200 "null"), none⟩])).log
      = [Event.called
           (some { Method := "POST", URL := stubPkg.personEnrichUrl, Body := "null",
                   Header := [("Authorization", "Bearer key"),
                     ("Content-Type", "application/json"),
                     ("User-Agent", stubPkg.userAgent)] })
           ⟨some (stubResponse 200 "null"), none⟩,
         Event.sent (buildAPIResponse stubPkg (some (stubResponse 200 "null"))
           stubPkg.personEnrichUrl none)] :=
  do_single_attempt stubPkg (scriptedClient 3 100) stubPkg.personEnrichUrl "null"
    [⟨some (stubResponse 200 "null"), none⟩] _ (stubResponse 200 "null") rfl rfl (by decide)

theorem autoRetry_log_extends (P : Pkg T) (c : fullContactClient σ) (url reqBytes : String)
    (k : Nat) (last : DoResult) (w : World σ T) :
    ∃ suffix, (autoRetry P c last.err last.resp k url reqBytes w).log = w.log ++ suffix := by
  refine autoRetry_induction P c url reqBytes
    (fun _ _ w w1 => ∃ suffix, w1.log = w.log ++ suffix) ?_ ?_ ?_ k last w
  · intro k last w _
    exact ⟨_, sendToChannel_log _ _ _ _ _⟩
  · intro k last w _ _ _
    rw [sendToChannel_log, retryAttempt_log]
    simp only [List.append_assoc]
    exact ⟨_, rfl⟩
  · intro k last w w1 _ _ ih
    obtain ⟨suffix, h⟩ := ih
    rw [h, retryAttempt_log]
    simp only [List.append_assoc]
    exact ⟨_, rfl⟩

/-- For every client: when `http.NewRequest` fails, `do` writes the error to
the channel and then calls the transport with a nil request. -/
theorem do_after_construction_error (P : Pkg T) (c : fullContactClient σ) (url reqBytes : String)
    (s : σ) (err : GoError) (h : P.NewRequest "POST" url reqBytes = .error err) :
    ∃ rest, (do_ P c url reqBytes (fresh s)).log
      = Event.sent (buildAPIResponse P none url (some err))
          :: Event.called none (c.Do none s).1 :: rest := by
  have hb : buildOrReport P c url reqBytes (fresh s)
      = (none, sendToChannel P none url (some err) (fresh s)) := by
    simp [buildOrReport, newHttpRequest, h]
  have hl : (firstAttempt P c url reqBytes (fresh s)).2.log
      = [Event.sent (buildAPIResponse P none url (some err)),
         Event.called none (c.Do none s).1] := by
    simp only [firstAttempt, httpDo, hb]
    rfl
  refine do_cases P c url reqBytes (fresh s)
    (fun w1 => ∃ rest, w1.log = Event.sent (buildAPIResponse P none url (some err))
      :: Event.called none (c.Do none s).1 :: rest) ?_ ?_
  · intro _ _
    exact ⟨_, by rw [sendToChannel_log, hl]; rfl⟩
  · intro _
    obtain ⟨suffix, hs⟩ := autoRetry_log_extends P c url reqBytes 0
      (firstAttempt P c url reqBytes (fresh s)).1 (firstAttempt P c url reqBytes (fresh s)).2
    exact ⟨suffix, by rw [hs, hl]; rfl⟩

/-- C2, the code at a URL that cannot be parsed: after the construction error
is written to the channel, `do` goes on. The transport is called with a nil
request, a retry follows after a sleep, and three values are written in all. -/
theorem do_construction_error_falls_through :
    requestsOf (do_ stubPkg (guardedClient 1 100) ":" "null" (fresh ())).log = [none, none]
      ∧ sleepsOf (do_ stubPkg (guardedClient 1 100) ":" "null" (fresh ())).log = [100000000]
      ∧ (sentOf (do_ stubPkg (guardedClient 1 100) ":" "null" (fresh ())).log).map (fun a => a.Err)
          = [some ⟨"missing protocol scheme"⟩, some ⟨"missing protocol scheme"⟩,
             some ⟨"nil request"⟩] := by
  simp [do_, autoRetry, buildOrReport, newHttpRequest, httpDo, stubPkg, guardedClient, fresh,
    respFinal, sendToChannel, Sleep, min, sleepDuration, wrapInt64, Millisecond, requestsOf,
    buildAPIResponse]

/-! ## The classifier -/

theorem buildAPIResponse_some (P : Pkg T) (r : HttpResponse) (url : String) :
    (buildAPIResponse P (some r) url none : APIResponse T)
      = if switchUrl P r url = P.personEnrichUrl then
          setPersonResponse P { RawHttpResponse := some r, Err := none }
        else if switchUrl P r url = P.companyEnrichUrl then
          setCompanyResponse P { RawHttpResponse := some r, Err := none }
        else if switchUrl P r url = P.companySearchUrl then
          setCompanySearchResponse P { RawHttpResponse := some r, Err := none }
        else if switchUrl P r url = P.identityMapUrl ∨ switchUrl P r url = P.identityResolveUrl
            ∨ switchUrl P r url = P.identityDeleteUrl then
          setResolveResponse P { RawHttpResponse := some r, Err := none }
        else { RawHttpResponse := some r, Err := none } := rfl

theorem setPersonResponse_facts (P : Pkg T) (r : HttpResponse) :
    (setPersonResponse P { RawHttpResponse := some r, Err := none }).RawHttpResponse = some r
      ∧ (∀ e, (setPersonResponse P { RawHttpResponse := some r, Err := none }).Err = some e →
          r.Body = .error e
            ∨ ∃ body, r.Body = .ok body ∧ P.isPopulated body = true
                ∧ P.unmarshalPerson body = .error e)
      ∧ ((setPersonResponse P { RawHttpResponse := some r, Err := none }).Err = none →
          (setPersonResponse P { RawHttpResponse := some r, Err := none }).StatusCode = r.StatusCode
            ∧ (setPersonResponse P { RawHttpResponse := some r, Err := none }).Status = r.Status) := by
  unfold setPersonResponse
  simp only
  cases hb : r.Body with
  | error e0 => simp
  | ok body =>
    by_cases hp : P.isPopulated body = true
    · cases hu : P.unmarshalPerson body <;> simp [hp, hu]
    · simp [hp]

theorem setCompanyResponse_facts (P : Pkg T) (r : HttpResponse) :
    (setCompanyResponse P { RawHttpResponse := some r, Err := none }).RawHttpResponse = some r
      ∧ (∀ e, (setCompanyResponse P { RawHttpResponse := some r, Err := none }).Err = some e →
          r.Body = .error e
            ∨ ∃ body, r.Body = .ok body ∧ P.isPopulated body = true
                ∧ P.unmarshalCompany body = .error e)
      ∧ ((setCompanyResponse P { RawHttpResponse := some r, Err := none }).Err = none →
          (setCompanyResponse P { RawHttpResponse := some r, Err := none }).StatusCode = r.StatusCode
            ∧ (setCompanyResponse P { RawHttpResponse := some r, Err := none }).Status = r.Status) := by
  unfold setCompanyResponse
  simp only
  cases hb : r.Body with
  | error e0 => simp
  | ok body =>
    by_cases hp : P.isPopulated body = true
    · cases hu : P.unmarshalCompany body <;> simp [hp, hu]
    · simp [hp]

theorem setCompanySearchResponse_facts (P : Pkg T) (r : HttpResponse) :
    (setCompanySearchResponse P { RawHttpResponse := some r, Err := none }).RawHttpResponse = some r
      ∧ (∀ e, (setCompanySearchResponse P { RawHttpResponse := some r, Err := none }).Err = some e →
          r.Body = .error e
            ∨ ∃ body, r.Body = .ok body ∧ P.isPopulated body = true
                ∧ P.unmarshalCompanySearch body = .error e)
      ∧ ((setCompanySearchResponse P { RawHttpResponse := some r, Err := none }).Err = none →
          (setCompanySearchResponse P { RawHttpResponse := some r, Err := none }).StatusCode
              = r.StatusCode
            ∧ (setCompanySearchResponse P { RawHttpResponse := some r, Err := none }).Status
              = r.Status) := by
  unfold setCompanySearchResponse
  simp only
  cases hb : r.Body with
  | error e0 => simp
  | ok body =>
    by_cases hp : P.isPopulated body = true
    · cases hu : P.unmarshalCompanySearch body <;> simp [hp, hu]
    · simp [hp]

theorem setResolveResponse_facts (P : Pkg T) (r : HttpResponse) :
    (setResolveResponse P { RawHttpResponse := some r, Err := none }).RawHttpResponse = some r
      ∧ (∀ e, (setResolveResponse P { RawHttpResponse := some r, Err := none }).Err = some e →
          r.Body = .error e
            ∨ ∃ body, r.Body = .ok body ∧ P.isPopulated body = true
                ∧ P.unmarshalResolve body = .error e)
      ∧ ((setResolveResponse P { RawHttpResponse := some r, Err := none }).Err = none →
          (setResolveResponse P { RawHttpResponse := some r, Err := none }).StatusCode = r.StatusCode
            ∧ (setResolveResponse P { RawHttpResponse := some r, Err := none }).Status = r.Status) := by
  unfold setResolveResponse
  simp only
  cases hb : r.Body with
  | error e0 => simp
  | ok body =>
    by_cases hp : P.isPopulated body = true
    · cases hu : P.unmarshalResolve body <;> simp [hp, hu]
    · simp [hp]

/-- The classifier keeps the response it is given, and the only errors it can
put on the value are the error of reading the body and the error of decoding
it; when it puts none, and the URL is that of a request kind, status and status
code are those of the response. -/
theorem buildAPIResponse_facts (P : Pkg T) (r : HttpResponse) (url : String) :
    (buildAPIResponse P (some r) url none : APIResponse T).RawHttpResponse = some r
      ∧ (∀ e, (buildAPIResponse P (some r) url none : APIResponse T).Err = some e →
          r.Body = .error e
            ∨ ∃ body, r.Body = .ok body ∧ P.isPopulated body = true
                ∧ (P.unmarshalPerson body = .error e ∨ P.unmarshalCompany body = .error e
                    ∨ P.unmarshalCompanySearch body = .error e
                    ∨ P.unmarshalResolve body = .error e))
      ∧ (∀ kind, switchUrl P r url = urlOf P kind →
          (buildAPIResponse P (some r) url none : APIResponse T).Err = none →
          (buildAPIResponse P (some r) url none : APIResponse T).StatusCode = r.StatusCode
            ∧ (buildAPIResponse P (some r) url none : APIResponse T).Status = r.Status) := by
  rw [buildAPIResponse_some]
  split
  · obtain ⟨h1, h2, h3⟩ := setPersonResponse_facts P r
    refine ⟨h1, ?_, fun _ _ => h3⟩
    intro e he
    rcases h2 e he with h | ⟨body, hb, hp, hu⟩
    · exact Or.inl h
    · exact Or.inr ⟨body, hb, hp, Or.inl hu⟩
  · split
    · obtain ⟨h1, h2, h3⟩ := setCompanyResponse_facts P r
      refine ⟨h1, ?_, fun _ _ => h3⟩
      intro e he
      rcases h2 e he with h | ⟨body, hb, hp, hu⟩
      · exact Or.inl h
      · exact Or.inr ⟨body, hb, hp, Or.inr (Or.inl hu)⟩
    · split
      · obtain ⟨h1, h2, h3⟩ := setCompanySearchResponse_facts P r
        refine ⟨h1, ?_, fun _ _ => h3⟩
        intro e he
        rcases h2 e he with h | ⟨body, hb, hp, hu⟩
        · exact Or.inl h
        · exact Or.inr ⟨body, hb, hp, Or.inr (Or.inr (Or.inl hu))⟩
      · split
        · obtain ⟨h1, h2, h3⟩ := setResolveResponse_facts P r
          refine ⟨h1, ?_, fun _ _ => h3⟩
          intro e he
          rcases h2 e he with h | ⟨body, hb, hp, hu⟩
          · exact Or.inl h
          · exact Or.inr ⟨body, hb, hp, Or.inr (Or.inr (Or.inr hu))⟩
        · rename_i n1 n2 n3 n4
          refine ⟨rfl, ?_, ?_⟩
          · intro e he
            simp at he
          · intro kind hk
            exfalso
            cases kind <;> simp only [urlOf] at hk
            · exact n1 hk
            · exact n2 hk
            · exact n3 hk
            · exact n4 (Or.inl hk)
            · exact n4 (Or.inr (Or.inl hk))
            · exact n4 (Or.inr (Or.inr hk))

/-- C6, as the code has it: when the requests are built, the one value a
dispatch writes to the channel is fixed by the result of its last transport
call, whatever came before and whatever `ShouldRetry` says of it, and so in
particular once the attempts are used up. If that call returned an error the
value carries the error and nothing else: no raw response, no payload, status
code zero. Otherwise the value is the classifier's reading of the last
response: it carries that response, it carries an error only when reading the
body or decoding it failed, and when it carries none, under the rule of a
request kind, its status and status code are those of the response. -/
theorem terminal_outcome_from_last_attempt (P : Pkg T) (c : fullContactClient σ)
    (url reqBytes : String) (s : σ) (req : HttpRequest)
    (hreq : (newHttpRequest P c url reqBytes (fresh s)).1 = .ok req) :
    ∃ res, (callsOf (do_ P c url reqBytes (fresh s)).log).getLast? = some res
      ∧ (∀ e, res.err = some e →
          sentOf (do_ P c url reqBytes (fresh s)).log
            = [{ RawHttpResponse := none, Err := some e, Status := "", StatusCode := 0,
                 IsSuccessful := false, PersonResponse := none, CompanyResponse := none,
                 CompanySearchResponse := none, ResolveResponse := none }])
      ∧ (∀ r, res.err = none → res.resp = some r →
          ∃ a, sentOf (do_ P c url reqBytes (fresh s)).log = [a]
            ∧ a = buildAPIResponse P (some r) url none
            ∧ a.RawHttpResponse = some r
            ∧ (∀ e, a.Err = some e →
                r.Body = .error e
                  ∨ ∃ body, r.Body = .ok body ∧ P.isPopulated body = true
                      ∧ (P.unmarshalPerson body = .error e ∨ P.unmarshalCompany body = .error e
                          ∨ P.unmarshalCompanySearch body = .error e
                          ∨ P.unmarshalResolve body = .error e))
            ∧ (∀ kind, switchUrl P r url = urlOf P kind → a.Err = none →
                a.StatusCode = r.StatusCode ∧ a.Status = r.Status)) := by
  obtain ⟨req0, hok⟩ := newHttpRequest_ok P c url reqBytes (fresh s) req hreq
  obtain ⟨res, h1, h2⟩ := do_sent P c url reqBytes hok (fresh s)
  refine ⟨res, h1, ?_, ?_⟩
  · intro e he
    rw [h2]
    simp [terminalOutcome, terminalArgs, he, buildAPIResponse]
  · intro r he hr
    obtain ⟨f1, f2, f3⟩ := buildAPIResponse_facts P r url
    refine ⟨buildAPIResponse P (some r) url none, ?_, rfl, f1, f2, f3⟩
    rw [h2]
    simp [terminalOutcome, terminalArgs, he, hr]

/-- A transport error and then a 503 with an empty body, one retry configured:
the last call decides, and its response is delivered. -/
theorem terminal_outcome_from_last_attempt_witness :
    ∃ res, (callsOf (do_ stubPkg (scriptedClient 1 100) stubPkg.identityMapUrl "null"
        (fresh [⟨none, some ⟨"timeout"⟩⟩, ⟨some (stubResponse 503 ""), none⟩])).log).getLast?
          = some res
      ∧ (∀ e, res.err = some e →
          sentOf (do_ stubPkg (scriptedClient 1 100) stubPkg.identityMapUrl "null"
              (fresh [⟨none, some ⟨"timeout"⟩⟩, ⟨some (stubResponse 503 ""), none⟩])).log
            = [{ RawHttpResponse := none, Err := some e, Status := "", StatusCode := 0,
                 IsSuccessful := false, PersonResponse := none, CompanyResponse := none,
                 CompanySearchResponse := none, ResolveResponse := none }])
      ∧ (∀ r, res.err = none → res.resp = some r →
          ∃ a, sentOf (do_ stubPkg (scriptedClient 1 100) stubPkg.identityMapUrl "null"
              (fresh [⟨none, some ⟨"timeout"⟩⟩, ⟨some (stubResponse 503 ""), none⟩])).log = [a]
            ∧ a = buildAPIResponse stubPkg (some r) stubPkg.identityMapUrl none
            ∧ a.RawHttpResponse = some r
            ∧ (∀ e, a.Err = some e →
                r.Body = .error e
                  ∨ ∃ body, r.Body = .ok body ∧ stubPkg.isPopulated body = true
                      ∧ (stubPkg.unmarshalPerson body = .error e
                          ∨ stubPkg.unmarshalCompany body = .error e
                          ∨ stubPkg.unmarshalCompanySearch body = .error e
                          ∨ stubPkg.unmarshalResolve body = .error e))
            ∧ (∀ kind, switchUrl stubPkg r stubPkg.identityMapUrl = urlOf stubPkg kind →
                a.Err = none → a.StatusCode = r.StatusCode ∧ a.Status = r.Status)) :=
  terminal_outcome_from_last_attempt stubPkg (scriptedClient 1 100) stubPkg.identityMapUrl "null"
    [⟨none, some ⟨"timeout"⟩⟩, ⟨some (stubResponse 503 ""), none⟩] _ rfl

/-- C6 as stated fails: the only attempt returns a 503 whose body does not
decode, no retry is configured, and the value delivered carries an error (the
decoding error) and status code zero. -/
theorem terminal_response_with_error :
    (callsOf (do_ stubPkg (scriptedClient 0 100) stubPkg.personEnrichUrl "null"
        (fresh [⟨some (stubResponse 503 "oops"), none⟩])).log).map (fun res => res.err) = [none]
      ∧ (sentOf (do_ stubPkg (scriptedClient 0 100) stubPkg.personEnrichUrl "null"
          (fresh [⟨some (stubResponse 503 "oops"), none⟩])).log).map
            (fun a => (a.Err, a.StatusCode)) = [(some ⟨"invalid character"⟩, 0)] := by
  simp [do_, autoRetry, newHttpRequest, httpDo, stubPkg, scriptedClient, fresh,
    sendToChannel, min, buildAPIResponse, setPersonResponse, stubResponse, stubShouldRetry,
    callsOf]

/-- C8: each of the six facade operations, called with a nil request, makes its
goroutine write one value to the channel and do nothing else (no transport
call): the value carries the error made by `NewFullContactError`, no raw
response and no payload. -/
theorem nil_request_rejected (P : Pkg T) (c : fullContactClient σ) (s : σ) :
    (PersonEnrich P c none (fresh s)).log
        = [Event.sent { RawHttpResponse := none,
                        Err := some (P.NewFullContactError "Person Request can't be nil"),
                        Status := "", StatusCode := 0, IsSuccessful := false,
                        PersonResponse := none, CompanyResponse := none,
                        CompanySearchResponse := none, ResolveResponse := none }]
      ∧ (CompanyEnrich P c none (fresh s)).log
        = [Event.sent { RawHttpResponse := none,
                        Err := some (P.NewFullContactError "Company Request can't be nil"),
                        Status := "", StatusCode := 0, IsSuccessful := false,
                        PersonResponse := none, CompanyResponse := none,
                        CompanySearchResponse := none, ResolveResponse := none }]
      ∧ (CompanySearch P c none (fresh s)).log
        = [Event.sent { RawHttpResponse := none,
                        Err := some (P.NewFullContactError "Company Request can't be nil"),
                        Status := "", StatusCode := 0, IsSuccessful := false,
                        PersonResponse := none, CompanyResponse := none,
                        CompanySearchResponse := none, ResolveResponse := none }]
      ∧ (IdentityMap P c none (fresh s)).log
        = [Event.sent { RawHttpResponse := none,
                        Err := some (P.NewFullContactError "Resolve Request can't be nil"),
                        Status := "", StatusCode := 0, IsSuccessful := false,
                        PersonResponse := none, CompanyResponse := none,
                        CompanySearchResponse := none, ResolveResponse := none }]
      ∧ (IdentityResolve P c none (fresh s)).log
        = [Event.sent { RawHttpResponse := none,
                        Err := some (P.NewFullContactError "Resolve Request can't be nil"),
                        Status := "", StatusCode := 0, IsSuccessful := false,
                        PersonResponse := none, CompanyResponse := none,
                        CompanySearchResponse := none, ResolveResponse := none }]
      ∧ (IdentityDelete P c none (fresh s)).log
        = [Event.sent { RawHttpResponse := none,
                        Err := some (P.NewFullContactError "Resolve Request can't be nil"),
                        Status := "", StatusCode := 0, IsSuccessful := false,
                        PersonResponse := none, CompanyResponse := none,
                        CompanySearchResponse := none, ResolveResponse := none }] :=
  ⟨rfl, rfl, rfl, rfl, rfl, rfl⟩

/-- The five operations that have a validator stop when it rejects the request:
the validator's error is written to the channel and the transport is not
called. -/
theorem validated_operations_reject (P : Pkg T) (c : fullContactClient σ) (s : σ) :
    (∀ r err, P.validateForCompanyEnrich r = some err →
        (CompanyEnrich P c (some r) (fresh s)).log
          = [Event.sent { RawHttpResponse := none, Err := some err }])
      ∧ (∀ r err, P.validateForCompanySearch r = some err →
        (CompanySearch P c (some r) (fresh s)).log
          = [Event.sent { RawHttpResponse := none, Err := some err }])
      ∧ (∀ r err, P.validateForIdentityMap r = some err →
        (IdentityMap P c (some r) (fresh s)).log
          = [Event.sent { RawHttpResponse := none, Err := some err }])
      ∧ (∀ r err, P.validateForIdentityResolve r = some err →
        (IdentityResolve P c (some r) (fresh s)).log
          = [Event.sent { RawHttpResponse := none, Err := some err }])
      ∧ (∀ r err, P.validateForIdentityDelete r = some err →
        (IdentityDelete P c (some r) (fresh s)).log
          = [Event.sent { RawHttpResponse := none, Err := some err }]) := by
  refine ⟨?_, ?_, ?_, ?_, ?_⟩ <;> intro r err h
  · simp only [CompanyEnrich, h]; rfl
  · simp only [CompanySearch, h]; rfl
  · simp only [IdentityMap, h]; rfl
  · simp only [IdentityResolve, h]; rfl
  · simp only [IdentityDelete, h]; rfl

/-- `PersonEnrich` on a non-nil request is `do` on the marshalled request: no
validator stands between the nil check and the dispatch. -/
theorem PersonEnrich_dispatches (P : Pkg T) (c : fullContactClient σ) (r : T.PersonRequest)
    (reqBytes : String) (w : World σ T) (h : P.marshalPerson r = .ok reqBytes) :
    PersonEnrich P c (some r) w = do_ P c P.personEnrichUrl reqBytes w := by
  simp only [PersonEnrich, h]

/-- C9, the code at the empty request, which every validator of the test
doubles rejects: `CompanyEnrich` stops at its validator and never calls the
transport, `PersonEnrich` sends the request. -/
theorem PersonEnrich_skips_validation :
    requestsOf (PersonEnrich stubPkg (guardedClient 0 100) (some "") (fresh ())).log
        = [some { Method := "POST", URL := stubPkg.personEnrichUrl, Body := "",
                  Header := [("Authorization", "Bearer key"),
                    ("Content-Type", "application/json"),
                    ("User-Agent", stubPkg.userAgent)] }]
      ∧ requestsOf (CompanyEnrich stubPkg (guardedClient 0 100) (some "") (fresh ())).log = []
      ∧ (sentOf (CompanyEnrich stubPkg (guardedClient 0 100) (some "") (fresh ())).log).map
          (fun a => a.Err) = [some ⟨"invalid company request"⟩] := by
  simp [PersonEnrich, CompanyEnrich, do_, buildOrReport, newHttpRequest, httpDo, stubPkg,
    guardedClient, fresh, respFinal, sendToChannel, requestsOf, buildAPIResponse, stubResponse,
    stubShouldRetry]

end FullContact
